import Mathlib

/-!
Verification of the region-location and crop-rectangle arithmetic of the
`slack-daily-screenshot` scripts.

The repository contains three small Node scripts sharing one pipeline shape
(navigate → locate a region → compute a crop rectangle → capture → upload):

* `src/index.mjs` (two variants separated in the file): largest-visible-table
  extraction (`extractTableHTML`), re-render, and clip computation inside
  `renderTableAndScreenshot`;
* `src/unnamed/part_000`: centered-block policy (`getCenteredContainerHandle`);
* `src/unnamed/part_001`: heading-anchored policy (`getCropRect`) and the
  device-pixel crop (`cropPng`).

Every definition below is a direct translation of the corresponding JS code.
JS numbers are modelled as rationals (`ℚ`); `Math.floor`/`Math.ceil`/
`Math.round` become `Int.floor`/`Int.ceil`/`round`.  DOM queries performed
through the browser (`querySelectorAll`, `elementFromPoint`, `querySelector`)
are modelled as fields of the document structures holding the query results in
document order, as the browser would return them; all the logic the scripts
apply to those results is translated faithfully.
-/

/-- A raw bounding box as returned by `boundingBox()` / `getBoundingClientRect()`
in `src/index.mjs`: CSS-pixel coordinates, modelled as rationals. -/
structure QBox where
  x : ℚ
  y : ℚ
  width : ℚ
  height : ℚ
deriving DecidableEq

/-- An integer rectangle (the final clip passed to `screenshot({clip})`). -/
structure IBox where
  x : ℤ
  y : ℤ
  width : ℤ
  height : ℤ
deriving DecidableEq

/-- `src/index.mjs`, first variant, lines 120–123 of `renderTableAndScreenshot`:
`box.x = Math.max(0, Math.floor(box.x)); … box.width = Math.max(1, Math.ceil(box.width)); …`.
The result is stored back into the (float-valued) box, hence `QBox → QBox`
with integer values cast back to `ℚ`. -/
def normalizeBox (b : QBox) : QBox :=
  { x := ((max 0 ⌊b.x⌋ : ℤ) : ℚ),
    y := ((max 0 ⌊b.y⌋ : ℤ) : ℚ),
    width := ((max 1 ⌈b.width⌉ : ℤ) : ℚ),
    height := ((max 1 ⌈b.height⌉ : ℤ) : ℚ) }

/-- `src/index.mjs`, second variant, lines 313–319: the clip is the measured box
expanded by `PAD` on every side, floored/ceiled, with origin clamped at 0 and
extents clamped at 1.  `PAD = Math.max(0, parseInt(PAD_AROUND, 10) || 0)` is
modelled by clamping the `pad` argument at 0 inside. -/
def mkClip (box : QBox) (pad : ℤ) : IBox :=
  let p : ℤ := max 0 pad
  { x := max 0 ⌊box.x - (p : ℚ)⌋,
    y := max 0 ⌊box.y - (p : ℚ)⌋,
    width := max 1 ⌈box.width + 2 * (p : ℚ)⌉,
    height := max 1 ⌈box.height + 2 * (p : ℚ)⌉ }

/-- `src/index.mjs`, second variant, lines 334–340: after the viewport resize the
table is re-measured into `box2` (possibly `null`), and `clip2` is built
field-by-field from `box2?.field ?? box.field`. -/
def finalClip (box : QBox) (box2 : Option QBox) (pad : ℤ) : IBox :=
  let p : ℤ := max 0 pad
  { x := max 0 ⌊(match box2 with | some b => b.x | none => box.x) - (p : ℚ)⌋,
    y := max 0 ⌊(match box2 with | some b => b.y | none => box.y) - (p : ℚ)⌋,
    width := max 1 ⌈(match box2 with | some b => b.width | none => box.width) + 2 * (p : ℚ)⌉,
    height := max 1 ⌈(match box2 with | some b => b.height | none => box.height) + 2 * (p : ℚ)⌉ }

/-- A `<table>` element as inspected by `extractTableHTML` in `src/index.mjs`:
computed style strings, computed opacity, rendered size, and its `outerHTML`.
The candidate list below stands for the `querySelectorAll(… table …)` result,
in document order. -/
structure TableEl where
  display : String
  visibility : String
  opacity : ℚ
  width : ℚ
  height : ℚ
  html : String
deriving DecidableEq

/-- Rendered area `r.width * r.height` used for the largest-table selection. -/
def area (e : TableEl) : ℚ := e.width * e.height

/-- `isVisible` from `extractTableHTML` (`src/index.mjs` lines 33–38):
hidden/display-none/zero-opacity elements are rejected, then the rendered box
must exceed 5×5 CSS px. -/
def isVisible (e : TableEl) : Bool :=
  if e.visibility == "hidden" || e.display == "none" || decide (e.opacity = 0) then false
  else decide (5 < e.width) && decide (5 < e.height)

/-- The selection loop of `extractTableHTML` (`src/index.mjs` lines 48–54):
`best = candidates[0]; bestArea = 0; for t of candidates: if (area > bestArea) …`. -/
def pickLoop (best : TableEl) (bestArea : ℚ) : List TableEl → TableEl
  | [] => best
  | t :: ts => if bestArea < area t then pickLoop t (area t) ts else pickLoop best bestArea ts

/-- `extractTableHTML` (`src/index.mjs` lines 31–56): filter the candidate tables
by visibility, fail with `no_table_found` when none survive, otherwise return
the `outerHTML` of the largest survivor. -/
def extractTableHTML (tables : List TableEl) : Except String String :=
  match tables.filter isVisible with
  | [] => Except.error "no_table_found"
  | c :: cs => Except.ok (pickLoop c 0 (c :: cs)).html

/-- Observable effects of one URL's pipeline in `run` (`src/index.mjs`): whether
a screenshot was captured, whether an upload happened, and the error the loop
iteration threw, if any. -/
structure UrlOutcome where
  captured : Bool
  uploaded : Bool
  err : Option String
deriving DecidableEq

/-- One iteration of the `run` loop in `src/index.mjs` (lines 146–172): a failed
extraction throws before `renderTableAndScreenshot` and before the Slack
upload; a successful one captures and uploads. -/
def processUrl (tables : List TableEl) : UrlOutcome :=
  match extractTableHTML tables with
  | Except.error r =>
      { captured := false, uploaded := false,
        err := some ("Could not locate a table on the page: " ++ r) }
  | Except.ok _ => { captured := true, uploaded := true, err := none }

/-- A `getBoundingClientRect()` result in `src/unnamed/part_001`, with
`right = left + width` and `bottom = top + height`. -/
structure PRect where
  left : ℚ
  top : ℚ
  width : ℚ
  height : ℚ
deriving DecidableEq

def PRect.right (r : PRect) : ℚ := r.left + r.width

def PRect.bottom (r : PRect) : ℚ := r.top + r.height

/-- An element as inspected by `getCropRect` in `src/unnamed/part_001`:
its rect, computed style, and whether it matches one of the preferred wrapper
selectors `main, article, section, #content, .content, .container`
(the `cur.matches?.(sel)` test). -/
structure PElem where
  rect : PRect
  display : String
  visibility : String
  matchesPreferred : Bool
deriving DecidableEq

/-- A heading (`h1`–`h6`) with its text content and its chain of ancestor
elements, parent first, up to but excluding `document.body` /
`document.documentElement` (where both climbing loops stop). -/
structure PHeading where
  text : String
  el : PElem
  ancestors : List PElem
deriving DecidableEq

/-- An `<a>` element present in the document (e.g. the trailing
"Stat of the Day List" link).  `getCropRect` never queries anchors; the field
exists in the document model so that claims about trailing markers can be
stated. -/
structure AnchorEl where
  text : String
  rect : PRect
deriving DecidableEq

/-- The document as seen by `getCropRect`: the `querySelectorAll('h1,…,h6')`
result in document order, the anchor elements, and `window.devicePixelRatio`. -/
structure PDoc where
  headings : List PHeading
  anchors : List AnchorEl
  dpr : ℚ
deriving DecidableEq

/-- The numeric parameters of `getCropRect`
(`MIN_CONTAINER_WIDTH/HEIGHT`, `PADDING_TOP/SIDES/BOTTOM` after `parseInt`). -/
structure PadCfg where
  minW : ℤ
  minH : ℤ
  padTop : ℤ
  padSides : ℤ
  padBottom : ℤ
deriving DecidableEq

/-- The default env values of `src/unnamed/part_001`: 300, 150, 8, 8, 12. -/
def defaultPadCfg : PadCfg := ⟨300, 150, 8, 8, 12⟩

/-- `goodSize` from `getCropRect`: `r.width >= minW && r.height >= minH`. -/
def goodSize (cfg : PadCfg) (e : PElem) : Bool :=
  decide ((cfg.minW : ℚ) ≤ e.rect.width) && decide ((cfg.minH : ℚ) ≤ e.rect.height)

/-- `blocky` from `getCropRect`: `display !== 'inline' && visibility !== 'hidden'`. -/
def blocky (e : PElem) : Bool :=
  !(e.display == "inline") && !(e.visibility == "hidden")

/-- The break condition of the first climbing loop of `getCropRect`:
`goodSize(cur) && blocky(cur) && preferred.some(sel => cur.matches?.(sel))`. -/
def prefHit (cfg : PadCfg) (e : PElem) : Bool :=
  goodSize cfg e && blocky e && e.matchesPreferred

/-- The container choice of `getCropRect` (`src/unnamed/part_001` lines 66–84).
The first loop starts at the heading itself and breaks at the first
preferred-wrapper hit; if the loop never breaks on a proper ancestor — i.e. it
either found nothing or broke at the heading itself (`container === heading`) —
the fallback loop from `heading.parentElement` takes the first sizable block
ancestor, and if that also fails the heading itself is the container. -/
def chooseContainer (cfg : PadCfg) (h : PHeading) : PElem :=
  if prefHit cfg h.el then
    (h.ancestors.find? fun e => goodSize cfg e && blocky e).getD h.el
  else
    match h.ancestors.find? (prefHit cfg) with
    | some c => c
    | none => (h.ancestors.find? fun e => goodSize cfg e && blocky e).getD h.el

/-- Decides whether `pat` is a leading fragment of `s` (character lists). -/
def startsWithL : List Char → List Char → Bool
  | [], _ => true
  | _ :: _, [] => false
  | p :: ps, c :: cs => p == c && startsWithL ps cs

/-- Decides whether `pat` occurs contiguously anywhere inside the list. -/
def hasInfixL (pat : List Char) : List Char → Bool
  | [] => startsWithL pat []
  | c :: rest => startsWithL pat (c :: rest) || hasInfixL pat rest

/-- The heading test `HEADING_RE = /stat of the day/i` applied to
`h.textContent`: a case-insensitive literal substring match. -/
def headingMatches (t : String) : Bool :=
  hasInfixL "stat of the day".data (t.data.map Char.toLower)

/-- The successful payload of `getCropRect`: the CSS-pixel crop rectangle and
the device pixel ratio. -/
structure CropInfo where
  rect : IBox
  dpr : ℚ
deriving DecidableEq

/-- `getCropRect` (`src/unnamed/part_001` lines 40–106): find the first heading
matching the pattern (else fail with `heading_not_found`), choose the container,
and build the rectangle from the container's left/right/bottom and the
heading's top.  `Math.floor(right - x)` / `Math.floor(bottom - y)` act on
integers and are written as plain subtraction. -/
def getCropRect (cfg : PadCfg) (doc : PDoc) : Except String CropInfo :=
  match doc.headings.find? (fun h => headingMatches h.text) with
  | none => Except.error "heading_not_found"
  | some h =>
    let container := chooseContainer cfg h
    let hb := h.el.rect
    let cb := container.rect
    let x : ℤ := max 0 (⌊cb.left⌋ - cfg.padSides)
    let y : ℤ := max 0 (⌊hb.top⌋ - cfg.padTop)
    let r : ℤ := ⌈cb.right⌉ + cfg.padSides
    let b : ℤ := ⌈cb.bottom⌉ + cfg.padBottom
    Except.ok { rect := { x := x, y := y, width := max 1 (r - x), height := max 1 (b - y) },
                dpr := doc.dpr }

/-- The pixel rectangle passed to `sharp(...).extract` in `cropPng`. -/
structure CropPx where
  left : ℤ
  top : ℤ
  width : ℤ
  height : ℤ
deriving DecidableEq

/-- `cropPng` (`src/unnamed/part_001` lines 109–117): CSS-pixel rect times the
device pixel ratio, rounded with `Math.round` (half-up, i.e. `round`), origin
clamped at 0 and extents at 1. -/
def cropPngRect (rect : QBox) (dpr : ℚ) : CropPx :=
  { left := max 0 (round (rect.x * dpr)),
    top := max 0 (round (rect.y * dpr)),
    width := max 1 (round (rect.width * dpr)),
    height := max 1 (round (rect.height * dpr)) }

/-- An element as inspected by `getCenteredContainerHandle` in
`src/unnamed/part_000`: tag name, computed style, rendered size. -/
structure CElem where
  tagName : String
  display : String
  visibility : String
  width : ℚ
  height : ℚ
deriving DecidableEq

/-- The document as seen by `getCenteredContainerHandle`:
`elementFromPoint(innerWidth/2, innerHeight/2)` together with its ancestor
chain (parent first, `parentElement` links), the first match of
`querySelector('main, #main, .container, #content, .content, article')`, and
`document.body`. -/
structure CDoc where
  elementAtCenter : Option (CElem × List CElem)
  wrapperMatch : Option CElem
  body : CElem
deriving DecidableEq

/-- `isBlock` from `src/unnamed/part_000`: `display !== 'inline' && visibility !== 'hidden'`. -/
def isBlockC (e : CElem) : Bool :=
  !(e.display == "inline") && !(e.visibility == "hidden")

/-- `bigEnough` from `src/unnamed/part_000`: `r.width > 200 && r.height > 200`. -/
def bigEnoughC (e : CElem) : Bool :=
  decide (200 < e.width) && decide (200 < e.height)

/-- The climbing loop of `getCenteredContainerHandle`
(`while (el && el.parentElement && el.tagName !== 'BODY' && el.tagName !== 'HTML')`):
stops when no parent remains or at BODY/HTML, breaks at the first block-level,
big-enough element (the current element included). -/
def climb : CElem → List CElem → CElem
  | el, [] => el
  | el, p :: rest =>
    if el.tagName == "BODY" || el.tagName == "HTML" then el
    else if isBlockC el && bigEnoughC el then el
    else climb p rest

/-- `getCenteredContainerHandle` (`src/unnamed/part_000` lines 24–52): `null`
when `elementFromPoint` found nothing; otherwise the climb result, replaced by
the wrapper-selector match (else `document.body`) when the climb ended on
BODY/HTML. -/
def getCenteredContainerHandle (doc : CDoc) : Option CElem :=
  match doc.elementAtCenter with
  | none => none
  | some (e, parents) =>
    let el := climb e parents
    if el.tagName == "BODY" || el.tagName == "HTML" then
      some (doc.wrapperMatch.getD doc.body)
    else
      some el

/-- The whitespace characters removed by JavaScript `String.prototype.trim`
(ASCII whitespace plus NBSP and the BOM; further Unicode spaces are not needed
for the statements below). -/
def isJsWs (c : Char) : Bool :=
  c == ' ' || c == '\t' || c == '\n' || c == '\r' ||
  c == '\x0b' || c == '\x0c' || c == ' ' || c == '﻿'

/-- Prepends a character to the first piece of a piece list (used to build up
`split(',')` right to left). -/
def consHead (c : Char) : List (List Char) → List (List Char)
  | [] => [[c]]
  | p :: ps => (c :: p) :: ps

/-- JavaScript `str.split(',')` on the character-list model: splitting the
empty string yields `[""]`, every comma starts a new piece, and any other
character extends the current first piece. -/
def splitOnComma : List Char → List (List Char)
  | [] => [[]]
  | c :: rest =>
    if c == ',' then [] :: splitOnComma rest
    else consHead c (splitOnComma rest)

/-- JavaScript `s.trim()`: drop leading and trailing whitespace. -/
def trimChars (l : List Char) : List Char :=
  (((l.dropWhile isJsWs).reverse).dropWhile isJsWs).reverse

/-- `TARGET_URLS.split(',').map(s => s.trim()).filter(Boolean)` — the URL-list
parsing shared by all three scripts (`src/index.mjs` line 133,
`src/unnamed/part_000` line 70, `src/unnamed/part_001` line 154). -/
def parseUrls (input : List Char) : List (List Char) :=
  ((splitOnComma input).map trimChars).filter (fun p => !p.isEmpty)

/-- Aggregate observable effects of one `run` call: numbers of captures and
uploads, and the error that aborted the loop, if any. -/
structure RunTrace where
  captures : Nat
  uploads : Nat
  failed : Option String
deriving DecidableEq

def boolToNat (b : Bool) : Nat := if b then 1 else 0

/-- The `for (const url of urls)` loop of `run`: each URL contributes its
outcome; a thrown error aborts the remaining URLs. -/
def runLoop (perUrl : List Char → UrlOutcome) : List (List Char) → RunTrace
  | [] => { captures := 0, uploads := 0, failed := none }
  | u :: us =>
    let o := perUrl u
    match o.err with
    | some e => { captures := boolToNat o.captured, uploads := boolToNat o.uploaded,
                  failed := some e }
    | none =>
      let rest := runLoop perUrl us
      { captures := boolToNat o.captured + rest.captures,
        uploads := boolToNat o.uploaded + rest.uploads,
        failed := rest.failed }

/-- `run`: parse `TARGET_URLS`, then process each URL in order.  The per-URL
behaviour (which depends on the fetched pages) is abstracted as a function. -/
def runTrace (perUrl : List Char → UrlOutcome) (input : List Char) : RunTrace :=
  runLoop perUrl (parseUrls input)

/-- Boolean test "table `t` has at least the area of `r`", used to state
first-in-document-order maximality of the selection. -/
def atLeast (r t : TableEl) : Bool := decide (area r ≤ area t)

/-- Normalization invariant on a float-valued box. -/
def goodQ (b : QBox) : Prop := 0 ≤ b.x ∧ 0 ≤ b.y ∧ 1 ≤ b.width ∧ 1 ≤ b.height

/-- Normalization invariant on an integer clip rectangle. -/
def goodI (b : IBox) : Prop := 0 ≤ b.x ∧ 0 ≤ b.y ∧ 1 ≤ b.width ∧ 1 ≤ b.height

/-- Normalization invariant on a device-pixel extract rectangle. -/
def goodPx (b : CropPx) : Prop := 0 ≤ b.left ∧ 0 ≤ b.top ∧ 1 ≤ b.width ∧ 1 ≤ b.height

/-- A `getCropRect` outcome is good when, if it succeeded, its rectangle is
normalized. -/
def cropResultGood : Except String CropInfo → Prop
  | Except.ok info => goodI info.rect
  | Except.error _ => True

/-! Concrete example data used by witnesses and counterexamples. -/

/-- A display-none table: filtered out by `isVisible`. -/
def tHidden : TableEl := ⟨"none", "visible", 1, 300, 200, "T0"⟩

/-- A visible table of area 200. -/
def tSmall : TableEl := ⟨"block", "visible", 1, 20, 10, "T1"⟩

/-- A visible table of area 400, the first of maximal area. -/
def tBig : TableEl := ⟨"block", "visible", 1, 40, 10, "T2"⟩

/-- A later visible table also of area 400 (a tie). -/
def tTie : TableEl := ⟨"block", "visible", 1, 10, 40, "T3"⟩

def exTables : List TableEl := [tHidden, tSmall, tBig, tTie]

/-- The `h2` element of the example heading, 400×30 at (100, 100). -/
def exHeadingEl : PElem := ⟨⟨100, 100, 400, 30⟩, "block", "visible", false⟩

/-- The preferred-wrapper ancestor: 600×320 at (50, 80), so bottom 400. -/
def exContainerEl : PElem := ⟨⟨50, 80, 600, 320⟩, "block", "visible", true⟩

/-- `<h2>PSD Stat of the Day</h2>` followed in the container by a table and a
trailing link. -/
def exHeading : PHeading := ⟨"PSD Stat of the Day", exHeadingEl, [exContainerEl]⟩

/-- The trailing `<a>Stat of the Day List</a>` link, whose top edge is 300. -/
def exAnchor : AnchorEl := ⟨"Stat of the Day List", ⟨100, 300, 200, 20⟩⟩

def exDoc : PDoc := ⟨[exHeading], [exAnchor], 2⟩

/-- The inline element under the viewport center in the part_000 example. -/
def exSpan : CElem := ⟨"SPAN", "inline", "visible", 50, 20⟩

/-- Its first block-level, big-enough ancestor. -/
def exDiv : CElem := ⟨"DIV", "block", "visible", 800, 600⟩

def exBody : CElem := ⟨"BODY", "block", "visible", 1366, 900⟩

def exCDoc : CDoc := ⟨some (exSpan, [exDiv, exBody]), none, exBody⟩

/-- Pre-resize measurement in the resize-then-remeasure example. -/
def exBox1 : QBox := ⟨0, 0, 10, 10⟩

/-- Post-resize measurement, different from the pre-resize one. -/
def exBox2 : QBox := ⟨5, 5, 20, 20⟩

/-- A padding configuration with negative side padding (`parseInt` of the env
strings can produce any integer), under which the crop width genuinely rounds
below 1 px. -/
def tinyCfg : PadCfg := ⟨300, 150, 8, -10, 12⟩

/-- A matching heading that is its own container (no sizable ancestors), with
a zero-width rect: the crop width computes to -20 before the 1-px floor. -/
def exSmallHeading : PHeading :=
  ⟨"Tiny Stat of the Day", ⟨⟨5, 50, 0, 20⟩, "block", "visible", false⟩, []⟩

def exDocSmall : PDoc := ⟨[exSmallHeading], [], 1⟩

/-- The crop `getCropRect tinyCfg exDocSmall` produces: width floored to 1. -/
def exSmallInfo : CropInfo := ⟨⟨15, 42, 1, 40⟩, 1⟩

/-! Theorems. -/

/-- C3 counterexample: the claim predicts that the degenerate integer box
`{x:0, y:0, w:0, h:0}` with padding 0 maps to itself (expansion by 0 and origin
clamping change nothing), but the code also floors width and height at 1, so
the computed clip is `{0, 0, 1, 1}`, not `{0, 0, 0, 0}`. -/
theorem mkClip_degenerate_cex :
    mkClip ⟨0, 0, 0, 0⟩ 0 = ⟨0, 0, 1, 1⟩ ∧ (⟨0, 0, 1, 1⟩ : IBox) ≠ (⟨0, 0, 0, 0⟩ : IBox) := by
  constructor
  · norm_num [mkClip]
  · decide

/-- C3 (amended): for every padding P ≥ 0 and every integer-coordinate box, the
computed clip is the box expanded by P on all four sides, with the origin
clamped at 0 on both axes and the width and height floored at 1.  In
particular the rounding steps are the identity on integer inputs. -/
theorem mkClip_int_expand_clamp (x y w h P : ℤ) (hP : 0 ≤ P) :
    mkClip ⟨(x : ℚ), (y : ℚ), (w : ℚ), (h : ℚ)⟩ P =
      ⟨max 0 (x - P), max 0 (y - P), max 1 (w + 2 * P), max 1 (h + 2 * P)⟩ := by
  simp only [mkClip, max_eq_right hP]
  have hx : ((x : ℚ)) - (P : ℚ) = ((x - P : ℤ) : ℚ) := by push_cast; ring
  have hy : ((y : ℚ)) - (P : ℚ) = ((y - P : ℤ) : ℚ) := by push_cast; ring
  have hw : ((w : ℚ)) + 2 * (P : ℚ) = ((w + 2 * P : ℤ) : ℚ) := by push_cast; ring
  have hh2 : ((h : ℚ)) + 2 * (P : ℚ) = ((h + 2 * P : ℤ) : ℚ) := by push_cast; ring
  rw [hx, hy, hw, hh2, Int.floor_intCast, Int.floor_intCast, Int.ceil_intCast,
    Int.ceil_intCast]

/-- C3 witness: the spec's own example, B = {10,10,100,50}, P = 8, evaluates to
{2, 2, 116, 66}. -/
theorem mkClip_int_expand_clamp_witness :
    (0 : ℤ) ≤ 8 ∧ mkClip ⟨10, 10, 100, 50⟩ 8 = ⟨2, 2, 116, 66⟩ := by
  refine ⟨by norm_num, ?_⟩
  have hthm := mkClip_int_expand_clamp 10 10 100 50 8 (by norm_num)
  norm_num at hthm
  exact hthm

/-- C4: when the post-resize measurement `box2` succeeded (and differs from the
pre-resize box), the final clip is computed from `box2` alone; it does not
depend on the stale pre-resize measurement at all. -/
theorem finalClip_uses_post_resize (box : QBox) (box2 : Option QBox) (b2 : QBox) (P : ℤ)
    (hsome : box2 = some b2) (hdiff : b2 ≠ box) :
    ∀ stale : QBox, finalClip stale box2 P = mkClip b2 P := by
  intro stale
  subst hsome
  rfl

/-- C4 witness: with pre-resize box (0,0,10,10) and post-resize box
(5,5,20,20), the final clip equals the clip of the post-resize box for every
choice of stale box. -/
theorem finalClip_uses_post_resize_witness :
    (some exBox2 = some exBox2) ∧ exBox2 ≠ exBox1 ∧
    ∀ stale : QBox, finalClip stale (some exBox2) 2 = mkClip exBox2 2 :=
  ⟨rfl, by decide, finalClip_uses_post_resize exBox1 (some exBox2) exBox2 2 rfl (by decide)⟩

/-- C5: a page whose candidate tables are all invisible makes
`extractTableHTML` fail with the structured reason `no_table_found`, and the
URL's pipeline iteration throws before the capture and the upload: neither
happens. -/
theorem no_visible_table_no_capture (tables : List TableEl)
    (hnone : tables.filter isVisible = []) :
    extractTableHTML tables = Except.error "no_table_found" ∧
    processUrl tables =
      { captured := false, uploaded := false,
        err := some "Could not locate a table on the page: no_table_found" } := by
  have h1 : extractTableHTML tables = Except.error "no_table_found" := by
    simp only [extractTableHTML, hnone]
  refine ⟨h1, ?_⟩
  simp only [processUrl, h1]
  rfl

/-- C5 witness: a page with one display-none table. -/
theorem no_visible_table_no_capture_witness :
    ([tHidden].filter isVisible = []) ∧
    (extractTableHTML [tHidden] = Except.error "no_table_found" ∧
      processUrl [tHidden] =
        { captured := false, uploaded := false,
          err := some "Could not locate a table on the page: no_table_found" }) :=
  ⟨by decide, no_visible_table_no_capture [tHidden] (by decide)⟩

/-- C6 counterexample: on a zero-size box the final width and height round to
0 < 1 px, yet no `RegionTooSmall` failure exists anywhere in the code: both the
device-pixel crop (`cropPng`) and the clip computation silently substitute a
1-pixel minimum. -/
theorem cropPngRect_substitutes_cex :
    cropPngRect ⟨0, 0, 0, 0⟩ 2 = ⟨0, 0, 1, 1⟩ ∧
    round ((0 : ℚ) * 2) < 1 ∧
    mkClip ⟨3, 3, 0, 0⟩ 0 = ⟨3, 3, 1, 1⟩ := by
  refine ⟨?_, ?_, ?_⟩
  · norm_num [cropPngRect, round_eq]
  · norm_num [round_eq]
  · norm_num [mkClip]

/-- C6 (amended): the crop calculators are total and never fail for small
regions: in each of them — the padded clip (`mkClip`), the post-resize clip
(`finalClip`, which equals the padded clip of the measured box), the
heading-anchored rectangle (`getCropRect`), and the device-pixel crop
(`cropPng`) — whenever the width or the height would round to less than
1 pixel, that extent is substituted by exactly 1 pixel, independently per
axis. -/
theorem crop_calculators_floor_small_extents :
    (∀ (b : QBox) (P : ℤ),
      (⌈b.width + 2 * ((max 0 P : ℤ) : ℚ)⌉ < 1 → (mkClip b P).width = 1) ∧
      (⌈b.height + 2 * ((max 0 P : ℤ) : ℚ)⌉ < 1 → (mkClip b P).height = 1)) ∧
    (∀ (box : QBox) (box2 : Option QBox) (P : ℤ),
      finalClip box box2 P = mkClip (box2.getD box) P) ∧
    (∀ (cfg : PadCfg) (doc : PDoc) (h : PHeading),
      doc.headings.find? (fun hh => headingMatches hh.text) = some h →
      ∀ info : CropInfo, getCropRect cfg doc = Except.ok info →
        (⌈(chooseContainer cfg h).rect.right⌉ + cfg.padSides -
            max 0 (⌊(chooseContainer cfg h).rect.left⌋ - cfg.padSides) < 1 →
          info.rect.width = 1) ∧
        (⌈(chooseContainer cfg h).rect.bottom⌉ + cfg.padBottom -
            max 0 (⌊h.el.rect.top⌋ - cfg.padTop) < 1 →
          info.rect.height = 1)) ∧
    (∀ (rect : QBox) (dpr : ℚ),
      (round (rect.width * dpr) < 1 → (cropPngRect rect dpr).width = 1) ∧
      (round (rect.height * dpr) < 1 → (cropPngRect rect dpr).height = 1)) := by
  refine ⟨fun b P => ⟨fun hlt => ?_, fun hlt => ?_⟩,
    fun box box2 P => ?_,
    fun cfg doc h hfind info hok => ?_,
    fun rect dpr => ⟨fun hlt => ?_, fun hlt => ?_⟩⟩
  · simp only [mkClip]
    exact max_eq_left (by omega)
  · simp only [mkClip]
    exact max_eq_left (by omega)
  · cases box2 <;> rfl
  · simp only [getCropRect, hfind, Except.ok.injEq] at hok
    subst hok
    refine ⟨fun hlt => ?_, fun hlt => ?_⟩
    · dsimp only
      exact max_eq_left (by omega)
    · dsimp only
      exact max_eq_left (by omega)
  · simp only [cropPngRect]
    exact max_eq_left (by omega)
  · simp only [cropPngRect]
    exact max_eq_left (by omega)

/-- C6 witness: concrete one-sided cases — a zero-width, tall box through the
padded clip, the post-resize clip equation, the heading-anchored rectangle
with a zero-width container (crop width -20 before the floor), and the
device-pixel crop at DPR 2. -/
theorem crop_calculators_floor_small_extents_witness :
    (⌈(QBox.mk 5 5 0 9).width + 2 * ((max 0 (0 : ℤ) : ℤ) : ℚ)⌉ < 1) ∧
    (mkClip ⟨5, 5, 0, 9⟩ 0).width = 1 ∧
    finalClip ⟨0, 0, 1, 1⟩ (some ⟨5, 5, 0, 9⟩) 0 =
      mkClip ((some (QBox.mk 5 5 0 9)).getD ⟨0, 0, 1, 1⟩) 0 ∧
    (exDocSmall.headings.find? (fun hh => headingMatches hh.text) = some exSmallHeading) ∧
    (getCropRect tinyCfg exDocSmall = Except.ok exSmallInfo) ∧
    (⌈(chooseContainer tinyCfg exSmallHeading).rect.right⌉ + tinyCfg.padSides -
        max 0 (⌊(chooseContainer tinyCfg exSmallHeading).rect.left⌋ - tinyCfg.padSides) < 1) ∧
    exSmallInfo.rect.width = 1 ∧
    (round ((QBox.mk 1 1 0 7).width * 2) < 1) ∧
    (cropPngRect ⟨1, 1, 0, 7⟩ 2).width = 1 := by
  have hth := crop_calculators_floor_small_extents
  have hcont : chooseContainer tinyCfg exSmallHeading = exSmallHeading.el := by decide
  have hfind : exDocSmall.headings.find? (fun hh => headingMatches hh.text) =
      some exSmallHeading := by decide
  have h1 : ⌈(QBox.mk 5 5 0 9).width + 2 * ((max 0 (0 : ℤ) : ℤ) : ℚ)⌉ < 1 := by norm_num
  have h2 := (hth.1 ⟨5, 5, 0, 9⟩ 0).1 h1
  have h3 := hth.2.1 ⟨0, 0, 1, 1⟩ (some ⟨5, 5, 0, 9⟩) 0
  have hok : getCropRect tinyCfg exDocSmall = Except.ok exSmallInfo := by
    simp only [getCropRect, hfind]
    rw [hcont]
    norm_num [exDocSmall, exSmallHeading, exSmallInfo, PRect.right, PRect.bottom, tinyCfg]
  have hlt : ⌈(chooseContainer tinyCfg exSmallHeading).rect.right⌉ + tinyCfg.padSides -
      max 0 (⌊(chooseContainer tinyCfg exSmallHeading).rect.left⌋ - tinyCfg.padSides) < 1 := by
    rw [hcont]
    norm_num [exSmallHeading, PRect.right, tinyCfg]
  have h4 := (hth.2.2.1 tinyCfg exDocSmall exSmallHeading hfind exSmallInfo hok).1 hlt
  have h5 : round ((QBox.mk 1 1 0 7).width * 2) < 1 := by norm_num [round_eq]
  have h6 := (hth.2.2.2 ⟨1, 1, 0, 7⟩ 2).1 h5
  exact ⟨h1, h2, h3, hfind, hok, hlt, h4, h5, h6⟩

/-- C8: the clamp-and-round normalization of `renderTableAndScreenshot` is
idempotent: applying it to its own output returns the same box, for every
input box. -/
theorem normalizeBox_idempotent (b : QBox) :
    normalizeBox (normalizeBox b) = normalizeBox b := by
  have k0 : ∀ n : ℤ, max 0 (max 0 n) = max 0 n := fun n => by rw [← max_assoc, max_self]
  have k1 : ∀ n : ℤ, max 1 (max 1 n) = max 1 n := fun n => by rw [← max_assoc, max_self]
  simp only [normalizeBox, Int.floor_intCast, Int.ceil_intCast, k0, k1]

/-- C2 counterexample: in a document with `<h2>PSD Stat of the Day</h2>`
(top 100), a table, and a trailing `<a>Stat of the Day List</a>` link whose top
edge is 300, inside a preferred container whose bottom edge is 400,
`getCropRect` puts the crop bottom at `ceil(container.bottom) + padBottom`
= 412, not at `link.top + padBottom` = 312: the trailing marker is never
consulted. -/
theorem getCropRect_trailing_link_cex :
    getCropRect defaultPadCfg exDoc = Except.ok ⟨⟨42, 92, 616, 320⟩, 2⟩ ∧
    (exDoc.anchors.map fun a => a.rect.top) = [300] ∧
    (92 : ℤ) + 320 ≠ 300 + defaultPadCfg.padBottom := by
  refine ⟨?_, by decide, by decide⟩
  have hfind : exDoc.headings.find? (fun hh => headingMatches hh.text) = some exHeading := by
    decide
  have hcont : chooseContainer defaultPadCfg exHeading = exContainerEl := by decide
  simp only [getCropRect, hfind]
  rw [hcont]
  norm_num [exDoc, exHeading, exHeadingEl, exContainerEl, PRect.right, PRect.bottom,
    defaultPadCfg]

/-- C2 (amended): the crop rectangle's top is the heading's floored top minus
the top padding (clamped at 0), and its bottom is the chosen container's
ceiled bottom plus the bottom padding (whenever that lies below the top); the
trailing link element is never consulted — replacing the document's anchors
changes nothing. -/
theorem getCropRect_bottom_from_container (cfg : PadCfg) (doc : PDoc) (h : PHeading)
    (hfind : doc.headings.find? (fun hh => headingMatches hh.text) = some h)
    (hroom : max 0 (⌊h.el.rect.top⌋ - cfg.padTop) + 1 ≤
      ⌈(chooseContainer cfg h).rect.bottom⌉ + cfg.padBottom) :
    ∃ r : IBox,
      getCropRect cfg doc = Except.ok ⟨r, doc.dpr⟩ ∧
      r.y = max 0 (⌊h.el.rect.top⌋ - cfg.padTop) ∧
      r.y + r.height = ⌈(chooseContainer cfg h).rect.bottom⌉ + cfg.padBottom ∧
      ∀ a2 : List AnchorEl, getCropRect cfg { doc with anchors := a2 } = getCropRect cfg doc := by
  refine ⟨⟨max 0 (⌊(chooseContainer cfg h).rect.left⌋ - cfg.padSides),
      max 0 (⌊h.el.rect.top⌋ - cfg.padTop),
      max 1 (⌈(chooseContainer cfg h).rect.right⌉ + cfg.padSides -
        max 0 (⌊(chooseContainer cfg h).rect.left⌋ - cfg.padSides)),
      max 1 (⌈(chooseContainer cfg h).rect.bottom⌉ + cfg.padBottom -
        max 0 (⌊h.el.rect.top⌋ - cfg.padTop))⟩, ?_, rfl, ?_, ?_⟩
  · simp only [getCropRect, hfind]
  · have hmax : max 1 (⌈(chooseContainer cfg h).rect.bottom⌉ + cfg.padBottom -
        max 0 (⌊h.el.rect.top⌋ - cfg.padTop)) =
        ⌈(chooseContainer cfg h).rect.bottom⌉ + cfg.padBottom -
          max 0 (⌊h.el.rect.top⌋ - cfg.padTop) := max_eq_right (by omega)
    dsimp only
    rw [hmax]
    omega
  · intro a2
    have hfind2 : (PDoc.mk doc.headings a2 doc.dpr).headings.find?
        (fun hh => headingMatches hh.text) = some h := hfind
    simp only [getCropRect, hfind, hfind2]

/-- C2 witness: the amended theorem applied to the example document. -/
theorem getCropRect_bottom_from_container_witness :
    (exDoc.headings.find? (fun hh => headingMatches hh.text) = some exHeading) ∧
    (max 0 (⌊exHeading.el.rect.top⌋ - defaultPadCfg.padTop) + 1 ≤
      ⌈(chooseContainer defaultPadCfg exHeading).rect.bottom⌉ + defaultPadCfg.padBottom) ∧
    (∃ r : IBox,
      getCropRect defaultPadCfg exDoc = Except.ok ⟨r, exDoc.dpr⟩ ∧
      r.y = max 0 (⌊exHeading.el.rect.top⌋ - defaultPadCfg.padTop) ∧
      r.y + r.height = ⌈(chooseContainer defaultPadCfg exHeading).rect.bottom⌉ +
        defaultPadCfg.padBottom ∧
      ∀ a2 : List AnchorEl,
        getCropRect defaultPadCfg { exDoc with anchors := a2 } =
          getCropRect defaultPadCfg exDoc) := by
  have hcont : chooseContainer defaultPadCfg exHeading = exContainerEl := by decide
  have hroom : max 0 (⌊exHeading.el.rect.top⌋ - defaultPadCfg.padTop) + 1 ≤
      ⌈(chooseContainer defaultPadCfg exHeading).rect.bottom⌉ + defaultPadCfg.padBottom := by
    rw [hcont]
    norm_num [exHeading, exHeadingEl, exContainerEl, PRect.bottom, defaultPadCfg]
  exact ⟨by decide, hroom,
    getCropRect_bottom_from_container defaultPadCfg exDoc exHeading (by decide) hroom⟩

/-- C7: whenever the rendered document has an element under the exact viewport
center (as every rendered document does), the centered-block policy returns
some region: the ancestor-walk result when it is not BODY/HTML, else the first
content-wrapper match, else the document body.  It never fails. -/
theorem centered_policy_total (doc : CDoc) (e : CElem) (parents : List CElem)
    (hcenter : doc.elementAtCenter = some (e, parents)) :
    ∃ r : CElem, getCenteredContainerHandle doc = some r ∧
      (((climb e parents).tagName == "BODY" || (climb e parents).tagName == "HTML") = true →
        r = doc.wrapperMatch.getD doc.body) ∧
      (((climb e parents).tagName == "BODY" || (climb e parents).tagName == "HTML") = false →
        r = climb e parents) := by
  by_cases hb : ((climb e parents).tagName == "BODY" ||
      (climb e parents).tagName == "HTML") = true
  · refine ⟨doc.wrapperMatch.getD doc.body, ?_, fun _ => rfl, fun hf => ?_⟩
    · simp only [getCenteredContainerHandle, hcenter, hb, if_true]
    · rw [hb] at hf
      cases hf
  · have hb' : ((climb e parents).tagName == "BODY" ||
        (climb e parents).tagName == "HTML") = false := by
      exact Bool.not_eq_true _ ▸ Bool.of_not_eq_true hb
    refine ⟨climb e parents, ?_, fun ht => ?_, fun _ => rfl⟩
    · simp [getCenteredContainerHandle, hcenter, hb']
    · rw [ht] at hb'
      cases hb'

/-- C7 witness: a document whose center element is an inline span inside a
large block div. -/
theorem centered_policy_total_witness :
    (exCDoc.elementAtCenter = some (exSpan, [exDiv, exBody])) ∧
    (∃ r : CElem, getCenteredContainerHandle exCDoc = some r ∧
      (((climb exSpan [exDiv, exBody]).tagName == "BODY" ||
          (climb exSpan [exDiv, exBody]).tagName == "HTML") = true →
        r = exCDoc.wrapperMatch.getD exCDoc.body) ∧
      (((climb exSpan [exDiv, exBody]).tagName == "BODY" ||
          (climb exSpan [exDiv, exBody]).tagName == "HTML") = false →
        r = climb exSpan [exDiv, exBody])) :=
  ⟨rfl, centered_policy_total exCDoc exSpan [exDiv, exBody] rfl⟩

/-- C9: every crop rectangle produced by the three pipelines is normalized:
origin at ≥ 0 on both axes, width and height at least 1, for arbitrary input
boxes (negative, fractional, zero or negative extents included). -/
theorem crop_rect_invariants :
    (∀ b : QBox, goodQ (normalizeBox b)) ∧
    (∀ (b : QBox) (P : ℤ), goodI (mkClip b P)) ∧
    (∀ (box : QBox) (box2 : Option QBox) (P : ℤ), goodI (finalClip box box2 P)) ∧
    (∀ (cfg : PadCfg) (doc : PDoc), cropResultGood (getCropRect cfg doc)) ∧
    (∀ (rect : QBox) (dpr : ℚ), goodPx (cropPngRect rect dpr)) := by
  refine ⟨fun b => ?_, fun b P => ?_, fun box box2 P => ?_, fun cfg doc => ?_,
    fun rect dpr => ?_⟩
  · simp only [goodQ, normalizeBox]
    refine ⟨?_, ?_, ?_, ?_⟩ <;> exact_mod_cast le_max_left _ _
  · simp only [goodI, mkClip]
    exact ⟨le_max_left _ _, le_max_left _ _, le_max_left _ _, le_max_left _ _⟩
  · simp only [goodI, finalClip]
    exact ⟨le_max_left _ _, le_max_left _ _, le_max_left _ _, le_max_left _ _⟩
  · cases hfind : doc.headings.find? (fun hh => headingMatches hh.text) with
    | none => simp [getCropRect, hfind, cropResultGood]
    | some h =>
      simp only [getCropRect, hfind, cropResultGood, goodI]
      exact ⟨le_max_left _ _, le_max_left _ _, le_max_left _ _, le_max_left _ _⟩
  · simp only [goodPx, cropPngRect]
    exact ⟨le_max_left _ _, le_max_left _ _, le_max_left _ _, le_max_left _ _⟩

/-- Invariant of the selection loop once `bestArea` agrees with `area best`:
the result bounds every candidate's area from above and is the first element
of `best :: cs` whose area reaches the result's area. -/
theorem pickLoop_bounds_first (cs : List TableEl) : ∀ best : TableEl,
    (∀ t ∈ best :: cs, area t ≤ area (pickLoop best (area best) cs)) ∧
    (best :: cs).find? (atLeast (pickLoop best (area best) cs)) =
      some (pickLoop best (area best) cs) := by
  induction cs with
  | nil =>
    intro best
    refine ⟨?_, ?_⟩
    · intro t ht
      simp only [pickLoop] at *
      rcases List.mem_singleton.mp ht with rfl
      exact le_refl _
    · simp [pickLoop, atLeast]
  | cons t ts ih =>
    intro best
    by_cases hlt : area best < area t
    · have hred : pickLoop best (area best) (t :: ts) = pickLoop t (area t) ts := by
        simp [pickLoop, hlt]
      rw [hred]
      obtain ⟨ihb, ihf⟩ := ih t
      have htle : area t ≤ area (pickLoop t (area t) ts) :=
        ihb t (List.mem_cons_self _ _)
      refine ⟨?_, ?_⟩
      · intro u hu
        rcases List.mem_cons.mp hu with rfl | hu
        · exact le_of_lt (lt_of_lt_of_le hlt htle)
        · exact ihb u hu
      · have hbest : ¬ (atLeast (pickLoop t (area t) ts) best = true) := by
          simp only [atLeast, decide_eq_true_eq, not_le]
          exact lt_of_lt_of_le hlt htle
        rw [List.find?_cons_of_neg _ hbest]
        exact ihf
    · have hred : pickLoop best (area best) (t :: ts) = pickLoop best (area best) ts := by
        simp [pickLoop, hlt]
      rw [hred]
      obtain ⟨ihb, ihf⟩ := ih best
      have hble : area best ≤ area (pickLoop best (area best) ts) :=
        ihb best (List.mem_cons_self _ _)
      have htb : area t ≤ area best := not_lt.mp hlt
      refine ⟨?_, ?_⟩
      · intro u hu
        rcases List.mem_cons.mp hu with rfl | hu2
        · exact hble
        · rcases List.mem_cons.mp hu2 with rfl | hu3
          · exact le_trans htb hble
          · exact ihb u (List.mem_cons_of_mem _ hu3)
      · by_cases hp : (atLeast (pickLoop best (area best) ts) best = true)
        · rw [List.find?_cons_of_pos _ hp] at ihf
          rw [List.find?_cons_of_pos _ hp]
          exact ihf
        · rw [List.find?_cons_of_neg _ hp] at ihf
          have hpt : ¬ (atLeast (pickLoop best (area best) ts) t = true) := by
            simp only [atLeast, decide_eq_true_eq, not_le]
            have hb2 : ¬ (area (pickLoop best (area best) ts) ≤ area best) := by
              intro hc
              exact hp (by simp only [atLeast, decide_eq_true_eq]; exact hc)
            exact lt_of_le_of_lt htb (not_le.mp hb2)
          rw [List.find?_cons_of_neg _ hp, List.find?_cons_of_neg _ hpt]
          exact ihf

/-- C1: when the filtered list of visible tables is non-empty, the extraction
returns the html of a survivor whose area is maximal, and that survivor is the
first (in document order) whose area reaches the maximum. -/
theorem extractTableHTML_picks_largest (tables : List TableEl) (c : TableEl)
    (cs : List TableEl) (hfilter : tables.filter isVisible = c :: cs) :
    ∃ r : TableEl, r ∈ c :: cs ∧
      extractTableHTML tables = Except.ok r.html ∧
      (∀ t ∈ c :: cs, area t ≤ area r) ∧
      (c :: cs).find? (atLeast r) = some r := by
  have hcvis : isVisible c = true := by
    have hmem : c ∈ tables.filter isVisible := hfilter ▸ List.mem_cons_self c cs
    exact (List.mem_filter.mp hmem).2
  have hcpos : 0 < area c := by
    unfold isVisible at hcvis
    split at hcvis
    · exact absurd hcvis (by simp)
    · have hand := (Bool.and_eq_true _ _).mp hcvis
      have h1 : (5 : ℚ) < c.width := of_decide_eq_true hand.1
      have h2 : (5 : ℚ) < c.height := of_decide_eq_true hand.2
      exact mul_pos (lt_trans (by norm_num) h1) (lt_trans (by norm_num) h2)
  have hinit : pickLoop c 0 (c :: cs) = pickLoop c (area c) cs := by
    simp [pickLoop, hcpos]
  obtain ⟨hb, hf⟩ := pickLoop_bounds_first cs c
  refine ⟨pickLoop c (area c) cs, List.mem_of_find?_eq_some hf, ?_, hb, hf⟩
  simp only [extractTableHTML, hfilter, hinit]

/-- C1 witness: four candidate tables, one hidden, areas 200/400/400; the
extraction returns the first table of maximal area. -/
theorem extractTableHTML_picks_largest_witness :
    (exTables.filter isVisible = [tSmall, tBig, tTie]) ∧
    (∃ r : TableEl, r ∈ [tSmall, tBig, tTie] ∧
      extractTableHTML exTables = Except.ok r.html ∧
      (∀ t ∈ [tSmall, tBig, tTie], area t ≤ area r) ∧
      ([tSmall, tBig, tTie]).find? (atLeast r) = some r) :=
  ⟨by decide, extractTableHTML_picks_largest exTables tSmall [tBig, tTie] (by decide)⟩

/-- `split(',')` never returns an empty list of pieces. -/
theorem splitOnComma_ne_nil (l : List Char) : splitOnComma l ≠ [] := by
  cases l with
  | nil => simp [splitOnComma]
  | cons c rest =>
    simp only [splitOnComma]
    by_cases hc : (c == ',') = true
    · simp [hc]
    · simp only [hc, if_false]
      cases hsp : splitOnComma rest <;> simp [consHead]

/-- If the input holds only commas and whitespace, every piece produced by
`split(',')` holds only whitespace. -/
theorem splitOnComma_pieces_ws (l : List Char)
    (hl : ∀ c ∈ l, c = ',' ∨ isJsWs c = true) :
    ∀ p ∈ splitOnComma l, ∀ c ∈ p, isJsWs c = true := by
  induction l with
  | nil =>
    intro p hp c hc
    simp only [splitOnComma, List.mem_singleton] at hp
    subst hp
    simp at hc
  | cons a rest ih =>
    intro p hp c hc
    have hrest : ∀ c ∈ rest, c = ',' ∨ isJsWs c = true :=
      fun c hc => hl c (List.mem_cons_of_mem _ hc)
    by_cases ha : (a == ',') = true
    · simp only [splitOnComma, ha, if_true, List.mem_cons] at hp
      rcases hp with rfl | hp
      · simp at hc
      · exact ih hrest p hp c hc
    · have haws : isJsWs a = true := by
        rcases hl a (List.mem_cons_self a rest) with h1 | h1
        · exact absurd (beq_iff_eq.mpr h1) ha
        · exact h1
      rcases hq : splitOnComma rest with _ | ⟨q, qs⟩
      · exact absurd hq (splitOnComma_ne_nil rest)
      · simp only [splitOnComma, ha, if_false, hq, consHead, Bool.false_eq_true,
          List.mem_cons] at hp
        rcases hp with rfl | hp
        · rcases List.mem_cons.mp hc with rfl | hc2
          · exact haws
          · exact ih hrest q (by rw [hq]; exact List.mem_cons_self _ _) c hc2
        · exact ih hrest p (by rw [hq]; exact List.mem_cons_of_mem _ hp) c hc

/-- `trim` of an all-whitespace piece is empty. -/
theorem trimChars_ws (p : List Char) (hp : ∀ c ∈ p, isJsWs c = true) :
    trimChars p = [] := by
  unfold trimChars
  have h1 : p.dropWhile isJsWs = [] := List.dropWhile_eq_nil_iff.mpr hp
  rw [h1]
  simp

/-- C10: the processed URL list is split-trim-filter of `TARGET_URLS`; an input
of only commas and whitespace parses to the empty list, and then the run loop
performs zero captures and zero uploads and finishes without error, whatever
each URL's pipeline would have done. -/
theorem only_separators_empty_run (input : List Char)
    (hin : ∀ c ∈ input, c = ',' ∨ isJsWs c = true) :
    parseUrls input = [] ∧
    ∀ perUrl : List Char → UrlOutcome, runTrace perUrl input = ⟨0, 0, none⟩ := by
  have hparse : parseUrls input = [] := by
    unfold parseUrls
    rw [List.filter_eq_nil_iff]
    intro a ha
    rcases List.mem_map.mp ha with ⟨q, hq, rfl⟩
    have hq0 : trimChars q = [] := trimChars_ws q (splitOnComma_pieces_ws input hin q hq)
    rw [hq0]
    simp
  exact ⟨hparse, fun perUrl => by unfold runTrace; rw [hparse]; rfl⟩

/-- C10 witness: the input ", ,\t" (commas and whitespace only). -/
theorem only_separators_empty_run_witness :
    (∀ c ∈ [',', ' ', ',', '\t'], c = ',' ∨ isJsWs c = true) ∧
    (parseUrls [',', ' ', ',', '\t'] = [] ∧
      ∀ perUrl : List Char → UrlOutcome,
        runTrace perUrl [',', ' ', ',', '\t'] = ⟨0, 0, none⟩) :=
  ⟨by decide, only_separators_empty_run [',', ' ', ',', '\t'] (by decide)⟩
